import Mathlib

/-!
Verification of the multi-agent conversation system (AgenticAI).

The repository's entry points (`src/Factory/MainRunner.py`, `src/.venv/MultiAgent.py`,
`src/.venv/SimpleAssistantWithFSMCP.py`, `src/.venv/GeminiBasic.py`) drive a turn-based
multi-agent conversation through a round-robin scheduler, composable termination
conditions, and subprocess-backed tool workbenches. The scheduler, termination engine,
agent tool-loop and tool-channel themselves are library components not present in the
repository's own sources, so they are modelled here from the specification; the
configuration module `src/Factory/Config.py` and the credential checks of the entry
points are embedded directly from the source.
-/

namespace AgenticAI

/-- A transcript message: speaker identity and textual content.
Modelled from the spec: Message = \x7bspeaker identity, content, ...\x7d, immutable once
appended; the sequence number is the position in the transcript list. -/
structure Message where
  source : String
  content : String
deriving DecidableEq, Repr

/-- Substring test on character lists: `containsSub hay pat` holds when `pat`
occurs contiguously inside `hay`. -/
def containsSub (hay pat : List Char) : Bool :=
  match hay with
  | [] => pat.isEmpty
  | _ :: t => pat.isPrefixOf hay || containsSub t pat

/-- Substring test on strings, via the underlying character lists. -/
def textContains (s pat : String) : Bool :=
  containsSub s.data pat.data

/-- Termination conditions.
Modelled from the spec: polymorphic over variants \x7bMaxMessages(n),
TextMention(pattern, optional source-name filter), All(list), Any(list)\x7d. -/
inductive TerminationCondition where
  | maxMessages (n : Nat)
  | textMention (pat : String) (sources : Option (List String))
  | anyOf (cs : List TerminationCondition)
  | allOf (cs : List TerminationCondition)
deriving Repr

mutual

/-- Evaluation of a termination condition over the transcript.
Modelled from the spec: stateless evaluation function of (transcript) → bool;
MaxMessages derives its count from transcript length; TextMention fires on the
triggering (latest appended) message, only when its author passes the optional
source filter and its content contains the pattern as a substring. -/
def evalCond : TerminationCondition → List Message → Bool
  | .maxMessages n, ts => decide (n ≤ ts.length)
  | .textMention pat srcs, ts =>
    match ts.getLast? with
    | none => false
    | some m =>
      (match srcs with
       | none => true
       | some l => l.contains m.source) && textContains m.content pat
  | .anyOf cs, ts => evalAnyList cs ts
  | .allOf cs, ts => evalAllList cs ts

/-- Disjunction of a list of conditions (the Any combinator's value). -/
def evalAnyList : List TerminationCondition → List Message → Bool
  | [], _ => false
  | c :: cs, ts => evalCond c ts || evalAnyList cs ts

/-- Conjunction of a list of conditions (the All combinator's value). -/
def evalAllList : List TerminationCondition → List Message → Bool
  | [], _ => true
  | c :: cs, ts => evalCond c ts && evalAllList cs ts

end

/-- Left-to-right short-circuit evaluation for Any, instrumented with an
evaluation-count probe: returns the truth value together with how many
sub-conditions were examined before stopping.
Modelled from the spec: Any/All combinators short-circuit evaluation
left-to-right. -/
def evalAnyProbe (ts : List Message) : List TerminationCondition → Bool × Nat
  | [] => (false, 0)
  | c :: cs =>
    if evalCond c ts then (true, 1)
    else
      let r := evalAnyProbe ts cs
      (r.1, r.2 + 1)

/-- Left-to-right short-circuit evaluation for All, instrumented with an
evaluation-count probe.
Modelled from the spec: Any/All combinators short-circuit evaluation
left-to-right. -/
def evalAllProbe (ts : List Message) : List TerminationCondition → Bool × Nat
  | [] => (true, 0)
  | c :: cs =>
    if evalCond c ts then
      let r := evalAllProbe ts cs
      (r.1, r.2 + 1)
    else (false, 1)

/-- A participant: stable name plus an agent behavior turning a read
view of the transcript into the content of one outgoing message.
Modelled from the spec: Participant = \x7bstable name, Agent reference\x7d; the
Agent contract is respond(transcriptView) → Message. -/
structure Participant where
  name : String
  respond : List Message → String

/-- The mutable state of one conversation run: the shared transcript, the
cursor (index of whose turn is next) and a count of participant invocations.
Modelled from the spec: a Conversation run owns one Transcript, one ordered
Participant list, one TerminationCondition, and a cursor. -/
structure RunState where
  transcript : List Message
  cursor : Nat
  invocations : Nat
deriving Repr

/-- One scheduler step: select the participant at the cursor, invoke it on
the current transcript, append the returned message, and advance the cursor
by one modulo the number of participants.
Modelled from the spec: select participant at cursor; invoke
Agent.respond(readOnlyTranscriptView); append returned Message; advance
cursor = (cursor + 1) mod N. -/
def stepRun (ps : List Participant) (st : RunState) : RunState :=
  match ps[st.cursor]? with
  | none => st
  | some p =>
    { transcript := st.transcript ++ [⟨p.name, p.respond st.transcript⟩]
      cursor := (st.cursor + 1) % ps.length
      invocations := st.invocations + 1 }

/-- The orchestrator loop, fuel-bounded: while the termination condition
evaluates false on the transcript, perform one scheduler step.
Modelled from the spec: loop while terminationCondition.evaluate(transcript)
== false; termination is checked strictly after each appended message. -/
def runLoop (ps : List Participant) (cond : TerminationCondition) :
    Nat → RunState → RunState
  | 0, st => st
  | fuel + 1, st =>
    if evalCond cond st.transcript then st
    else runLoop ps cond fuel (stepRun ps st)

/-- The orchestrator entry point: seed the transcript with a synthetic
initial message carrying the task from a virtual user role, then run the
loop from cursor 0.
Modelled from the spec: run(participants, initialTask, terminationCondition);
seeds the transcript with a synthetic initial message carrying initialTask
from a virtual user role. -/
def runOrchestrator (ps : List Participant) (task : String)
    (cond : TerminationCondition) (fuel : Nat) : RunState :=
  runLoop ps cond fuel { transcript := [⟨"user", task⟩], cursor := 0, invocations := 0 }

/-- A model-backend response: either a final answer or a tool-call request.
Modelled from the spec: generate(transcript, toolCatalogue?) →
\x7bfinalMessage\x7d | \x7btoolCallRequest\x7d. -/
inductive BackendResponse where
  | final (content : String)
  | toolCall (toolName : String) (args : List (String × String))

/-- Outcome of one agent turn: a final message, or the iteration-cap failure.
Modelled from the spec: exceeding the cap surfaces an AgentFailure, reported
as CapExceeded. -/
inductive TurnResult where
  | success (content : String)
  | capExceeded
deriving DecidableEq, Repr

/-- The agent's internal tool-call sub-loop, with the backend abstracted as a
function from the index of the backend call to its response. `remaining`
counts tool-call iterations still allowed; `calls` counts backend calls made
so far. Each round makes one backend call; a final answer ends the turn, a
tool-call request consumes one remaining iteration, and a tool-call request
with none remaining ends the turn with the cap failure.
Modelled from the spec: an Agent must enforce a maximum number of tool-call
iterations per turn to guarantee the loop terminates even if the backend
keeps requesting tools. -/
def agentTurnAux (backend : Nat → BackendResponse) :
    Nat → Nat → TurnResult × Nat
  | remaining, calls =>
    match backend calls with
    | .final s => (.success s, calls + 1)
    | .toolCall _ _ =>
      match remaining with
      | 0 => (.capExceeded, calls + 1)
      | r + 1 => agentTurnAux backend r (calls + 1)

/-- One full agent turn with tool-iteration cap `cap`, returning the turn
result and the total number of backend calls made. -/
def agentTurn (backend : Nat → BackendResponse) (cap : Nat) :
    TurnResult × Nat :=
  agentTurnAux backend cap 0

/-- A tool-call request forwarded to a workbench tool channel.
Modelled from the spec: ToolCallRequest = \x7btool name, arguments\x7d. -/
structure ToolCallRequest where
  toolName : String
  args : List (String × String)

/-- Lifecycle states of a tool channel.
Modelled from the spec: acquire() → ready; on subprocess failure the channel
transitions to a terminal Dead state; release() reclaims it. -/
inductive ToolChannelState where
  | ready
  | dead
  | released
deriving DecidableEq, Repr

/-- Outcome of one channel invocation.
Modelled from the spec: a ToolCallRequest is resolved to exactly one
ToolResult or a channel-failure error. -/
inductive InvokeOutcome where
  | result (payload : String)
  | channelFailure
deriving DecidableEq, Repr

/-- One channel invocation, with the subprocess abstracted as a function
returning `some payload` on success and `none` when it dies mid-invocation.
Returns the outcome, the channel state afterwards, and whether the
subprocess was attempted at all.
Modelled from the spec: if the subprocess exits unexpectedly the invocation
fails with ChannelFailure and the channel transitions to a terminal Dead
state; an invoke on a Dead channel fails immediately. -/
def invoke (st : ToolChannelState)
    (subprocess : ToolCallRequest → Option String)
    (req : ToolCallRequest) : InvokeOutcome × ToolChannelState × Bool :=
  match st with
  | .ready =>
    match subprocess req with
    | some payload => (.result payload, .ready, true)
    | none => (.channelFailure, .dead, true)
  | .dead => (.channelFailure, .dead, false)
  | .released => (.channelFailure, .released, false)

/-- Releasing a channel terminates the subprocess and reclaims its
resources, from any prior state.
Modelled from the spec: release() guarantees the subprocess is terminated
and its resources reclaimed even if prior invocations failed. -/
def releaseChannel : ToolChannelState → ToolChannelState :=
  fun _ => .released

/-- The result of a scoped body: a value, or an exception raised during an
invocation. -/
inductive PyOutcome (α : Type) where
  | ok (a : α)
  | exn (e : String)

/-- A scoped acquire/use/release bracket over a resource state: run the
body, then apply the release action to the resulting resource state
regardless of whether the body produced a value or an exception.
Modelled from the spec: callers must use an acquire/invoke*/release
discipline with release guaranteed on every exit path, including exceptions
during invoke (the async-with blocks of the entry points). -/
def withScope {α σ : Type} (release : σ → σ)
    (body : σ → PyOutcome α × σ) (s : σ) : PyOutcome α × σ :=
  let r := body s
  (r.1, release r.2)

/-- A process environment: maps a variable name to its value, `none` when
the variable is unset. -/
def Env : Type := String → Option String

/-- Python truthiness test for `not gkey` where `gkey = os.getenv(...)`:
true exactly when the value is None (variable unset) or the empty string. -/
def envStrFalsy : Option String → Bool
  | none => true
  | some s => s.isEmpty

/-- Python `os.getenv(key, default)`: the default applies only when the
variable is unset; a variable set to the empty string yields the empty
string. -/
def osGetenvD (env : Env) (k d : String) : String :=
  (env k).getD d

/-- What an entry point does with the credential: return early before
constructing anything, or construct the model client with the given key. -/
inductive EntryOutcome where
  | earlyReturn
  | clientConstructed (apiKey : Option String)
deriving DecidableEq, Repr

/-- Embeds the credential phase of `main` in `src/.venv/MultiAgent.py`
(lines 93-124): fetch GEMINI_API_KEY; if falsy, print an error and return;
otherwise construct the model client with the key. -/
def multiAgentMain (env : Env) : EntryOutcome :=
  let gkey := env "GEMINI_API_KEY"
  if envStrFalsy gkey then .earlyReturn
  else .clientConstructed gkey

/-- Embeds the credential phase of `main` in
`src/.venv/SimpleAssistantWithFSMCP.py` (lines 58-92): fetch
GEMINI_API_KEY; if falsy, print an error and return before building the
workbench; otherwise construct the workbench and model client. -/
def simpleAssistantMain (env : Env) : EntryOutcome :=
  let gkey := env "GEMINI_API_KEY"
  if envStrFalsy gkey then .earlyReturn
  else .clientConstructed gkey

/-- Embeds the credential phase of `main_with_round_robin_chat` in
`src/Factory/MainRunner.py` (lines 28-54): fetch GEMINI_API_KEY; if falsy,
print an error and return before obtaining any workbench; otherwise build
the three workbenches and the model client. -/
def mainWithRoundRobinChat (env : Env) : EntryOutcome :=
  let gkey := env "GEMINI_API_KEY"
  if envStrFalsy gkey then .earlyReturn
  else .clientConstructed gkey

/-- Embeds the credential phase of `main` in `src/.venv/GeminiBasic.py`
(lines 22-32): fetch GEMINI_API_KEY and construct the model client with it
unconditionally, with no validation. -/
def geminiBasicMain (env : Env) : EntryOutcome :=
  let gkey := env "GEMINI_API_KEY"
  .clientConstructed gkey

/-- Where the `uv` executable can be found, as probed by
`get_MySQL_ServerMCP`: `shutil.which("uv")` on PATH, then the three
candidate locations relative to the Python installation, in order. -/
structure UvProbe where
  onPath : Option String
  scriptsUvExe : Bool
  scriptsUv : Bool
  binUv : Bool

/-- Embeds the `uv` lookup of `get_MySQL_ServerMCP` in
`src/Factory/Config.py` (lines 44-58): use the PATH hit when present,
otherwise the first existing candidate among Scripts/uv.exe, Scripts/uv,
bin/uv. -/
def findUvPath (uv : UvProbe) : Option String :=
  match uv.onPath with
  | some p => some p
  | none =>
    if uv.scriptsUvExe then some "Scripts/uv.exe"
    else if uv.scriptsUv then some "Scripts/uv"
    else if uv.binUv then some "bin/uv"
    else none

/-- Result of `get_MySQL_ServerMCP`: the FileNotFoundError for a missing
`uv`, the ValueError for a falsy MYSQL_DATABASE entry, or the configured
workbench with its command and server environment. -/
inductive MySQLOutcome where
  | fileNotFoundError
  | valueErrorMissingDatabase
  | workbench (command : String) (serverEnv : List (String × String))
deriving DecidableEq, Repr

/-- Embeds `MCPConfig.get_MySQL_ServerMCP` in `src/Factory/Config.py`
(lines 27-102): find `uv` (raising FileNotFoundError when absent), build
the MySQL configuration from the environment with defaults, raise
ValueError when the MYSQL_DATABASE entry is falsy, else return the
workbench built over that configuration. -/
def get_MySQL_ServerMCP (env : Env) (uv : UvProbe) : MySQLOutcome :=
  match findUvPath uv with
  | none => .fileNotFoundError
  | some uvPath =>
    let mysqlConfig : List (String × String) :=
      [("MYSQL_HOST", osGetenvD env "MYSQL_HOST" "localhost"),
       ("MYSQL_PORT", osGetenvD env "MYSQL_PORT" "3306"),
       ("MYSQL_USER", osGetenvD env "MYSQL_USER" "root"),
       ("MYSQL_PASSWORD", osGetenvD env "MYSQL_PASSWORD" "1234"),
       ("MYSQL_DATABASE", osGetenvD env "MYSQL_DATABASE" "school_db")]
    if (osGetenvD env "MYSQL_DATABASE" "school_db").isEmpty then
      .valueErrorMissingDatabase
    else
      .workbench uvPath mysqlConfig

/-- Lookup in a Python-dict-like association list where a later binding for
the same key overrides an earlier one (last write wins), as in
`\x7b"k": v, **env_vars\x7d`. -/
def lastAssoc (d : List (String × String)) (k : String) : Option String :=
  d.foldl (fun acc p => if p.1 = k then some p.2 else acc) none

/-- Embeds `MCPConfig.get_RestApi_ServerMCP` in `src/Factory/Config.py`
(lines 141-187), reduced to the server environment it builds: REST_BASE_URL
from the base_url argument or the default mock URL, HEADER_Accept from the
accept_header argument or "application/json", then the keyword env_vars
merged last. -/
def get_RestApi_ServerMCP (base_url accept_header : Option String)
    (env_vars : List (String × String)) : List (String × String) :=
  let default_base_url := "https://fake-json-api.mock.beeceptor.com/users"
  let default_accept := "application/json"
  let rest_base_url := base_url.getD default_base_url
  let header_accept := accept_header.getD default_accept
  [("REST_BASE_URL", rest_base_url), ("HEADER_Accept", header_accept)] ++ env_vars

/-- Index of the first condition in the list satisfying the predicate,
counting from 0. -/
def firstSatIdx (p : TerminationCondition → Bool) :
    List TerminationCondition → Option Nat
  | [] => none
  | c :: cs => if p c then some 0 else (firstSatIdx p cs).map (fun i => i + 1)

/-- A backend that requests a tool call on every backend call, for
exercising the iteration cap. -/
def toolHungryBackend : Nat → BackendResponse :=
  fun _ => .toolCall "query" []

/-- A subprocess that dies on every invocation. -/
def deadSubprocess : ToolCallRequest → Option String :=
  fun _ => none

/-- A sample tool-call request, as issued by the FileAgent of
MainRunner.py. -/
def demoReq : ToolCallRequest :=
  ⟨"write_file", [("path", "round_robin_report.txt")]⟩

/-- The authorship invariant of a round-robin run: the cursor equals the
invocation count modulo the participant count, the transcript holds the
seed message plus one message per invocation, and the k-th agent-authored
message (counting from 0, at transcript position k+1) is authored by
participant number k mod N. -/
def RoundRobinInv (ps : List Participant) (st : RunState) : Prop :=
  st.cursor = st.invocations % ps.length ∧
  st.transcript.length = 1 + st.invocations ∧
  ∀ k (hk : k + 1 < st.transcript.length),
    (ps[k % ps.length]?).map Participant.name
      = some (st.transcript.get ⟨k + 1, hk⟩).source

/-- The three participants of MainRunner.py's pipeline, with stubbed agent
behaviors (only names matter for scheduling). -/
def demoPs : List Participant :=
  [⟨"RestApiAgent", fun _ => "raw JSON"⟩,
   ⟨"DatabaseAgent", fun _ => "report"⟩,
   ⟨"FileAgent", fun _ => "TERMINATE_CHAT"⟩]

/-- The two participants of MultiAgent.py, with stubbed agent behaviors. -/
def demo2Ps : List Participant :=
  [⟨"Researcher", fun _ => "facts"⟩,
   ⟨"Analyst", fun _ => "analysis"⟩]

/-- A run state whose last message already satisfies the MainRunner
termination condition. -/
def stoppedState : RunState :=
  ⟨[⟨"FileAgent", "saved; TERMINATE_CHAT"⟩], 0, 0⟩

/-- An environment with no variables set. -/
def emptyEnv : Env := fun _ => none

/-- An environment where MYSQL_DATABASE is set to the empty string and
nothing else is set. -/
def envEmptyDb : Env :=
  fun k => if k = "MYSQL_DATABASE" then some "" else none

/-- A probe where `uv` is found on PATH. -/
def uvOnPath : UvProbe := ⟨some "/usr/local/bin/uv", false, false, false⟩

lemma getLast?_append_singleton {α : Type} (ts : List α) (m : α) :
    (ts ++ [m]).getLast? = some m := by
  cases ts with
  | nil => rfl
  | cons a t => rw [List.getLast?_append_cons]; rfl

/-- C3: a TextMention condition restricted to source P triggers on the
transcript ending in message m if and only if m's author is exactly P and
m's content contains the pattern as a substring; in particular a message
from any other participant containing the pattern never triggers it. -/
theorem textMention_source_filter_iff (pat P : String) (ts : List Message)
    (m : Message) :
    evalCond (.textMention pat (some [P])) (ts ++ [m]) = true ↔
      m.source = P ∧ textContains m.content pat = true := by
  simp only [evalCond, getLast?_append_singleton]
  simp [List.contains_cons, Bool.and_eq_true, beq_iff_eq, and_comm]

lemma evalAnyProbe_fst (ts : List Message) :
    ∀ cs : List TerminationCondition,
      (evalAnyProbe ts cs).1 = evalAnyList cs ts := by
  intro cs
  induction cs with
  | nil => rfl
  | cons c cs ih =>
    by_cases h : evalCond c ts = true
    · simp [evalAnyProbe, evalAnyList, h]
    · simp only [Bool.not_eq_true] at h
      simp [evalAnyProbe, evalAnyList, h, ih]

lemma evalAllProbe_fst (ts : List Message) :
    ∀ cs : List TerminationCondition,
      (evalAllProbe ts cs).1 = evalAllList cs ts := by
  intro cs
  induction cs with
  | nil => rfl
  | cons c cs ih =>
    by_cases h : evalCond c ts = true
    · simp [evalAllProbe, evalAllList, h, ih]
    · simp only [Bool.not_eq_true] at h
      simp [evalAllProbe, evalAllList, h]

lemma evalAnyProbe_count (ts : List Message) :
    ∀ cs : List TerminationCondition,
      (evalAnyProbe ts cs).2
        = ((firstSatIdx (fun c => evalCond c ts) cs).map
            (fun i => i + 1)).getD cs.length := by
  intro cs
  induction cs with
  | nil => rfl
  | cons c cs ih =>
    by_cases h : evalCond c ts = true
    · simp [evalAnyProbe, firstSatIdx, h]
    · simp only [Bool.not_eq_true] at h
      simp only [evalAnyProbe, firstSatIdx, h, Bool.false_eq_true, if_neg,
        List.length_cons, ih]
      cases hfi : firstSatIdx (fun c => evalCond c ts) cs <;> simp [hfi]

lemma evalAllProbe_count (ts : List Message) :
    ∀ cs : List TerminationCondition,
      (evalAllProbe ts cs).2
        = ((firstSatIdx (fun c => !(evalCond c ts)) cs).map
            (fun i => i + 1)).getD cs.length := by
  intro cs
  induction cs with
  | nil => rfl
  | cons c cs ih =>
    by_cases h : evalCond c ts = true
    · simp only [evalAllProbe, firstSatIdx, h, Bool.not_true, if_pos,
        Bool.false_eq_true, if_neg, List.length_cons, ih]
      cases hfi : firstSatIdx (fun c => !(evalCond c ts)) cs <;> simp [hfi]
    · simp only [Bool.not_eq_true] at h
      simp [evalAllProbe, firstSatIdx, h]

/-- C6: the Any and All combinators evaluate sub-conditions left-to-right
and short-circuit. The probe count equals the position (plus one) of the
first true sub-condition for Any, and of the first false sub-condition for
All, so no later sub-condition is examined once the result is settled; the
probed value agrees with the combinator's value. -/
theorem any_all_short_circuit (ts : List Message)
    (cs : List TerminationCondition) :
    (evalAnyProbe ts cs).1 = evalAnyList cs ts ∧
    (evalAllProbe ts cs).1 = evalAllList cs ts ∧
    (evalAnyProbe ts cs).2
      = ((firstSatIdx (fun c => evalCond c ts) cs).map
          (fun i => i + 1)).getD cs.length ∧
    (evalAllProbe ts cs).2
      = ((firstSatIdx (fun c => !(evalCond c ts)) cs).map
          (fun i => i + 1)).getD cs.length :=
  ⟨evalAnyProbe_fst ts cs, evalAllProbe_fst ts cs,
   evalAnyProbe_count ts cs, evalAllProbe_count ts cs⟩

lemma agentTurnAux_calls_le (backend : Nat → BackendResponse) :
    ∀ r c : Nat, (agentTurnAux backend r c).2 ≤ c + r + 1 := by
  intro r
  induction r with
  | zero =>
    intro c
    cases h : backend c <;> simp [agentTurnAux, h]
  | succ r ih =>
    intro c
    cases h : backend c with
    | final s => simp [agentTurnAux, h]
    | toolCall n a =>
      have hrec := ih (c + 1)
      simp only [agentTurnAux, h]
      omega

lemma agentTurnAux_allTools (backend : Nat → BackendResponse)
    (h : ∀ i, ∃ n a, backend i = .toolCall n a) :
    ∀ r c : Nat, agentTurnAux backend r c = (.capExceeded, c + r + 1) := by
  intro r
  induction r with
  | zero =>
    intro c
    obtain ⟨n, a, hc⟩ := h c
    simp [agentTurnAux, hc]
  | succ r ih =>
    intro c
    obtain ⟨n, a, hc⟩ := h c
    simp only [agentTurnAux, hc]
    rw [ih (c + 1)]
    simp [Prod.ext_iff]
    omega

/-- C5: the agent's tool-call sub-loop is bounded by the configured cap: at
most cap+1 backend calls occur in one turn, and a backend that requests
tools on every call is stopped with CapExceeded after exactly cap+1
backend calls instead of looping forever. -/
theorem agent_tool_loop_bounded (backend : Nat → BackendResponse)
    (cap : Nat) :
    (agentTurn backend cap).2 ≤ cap + 1 ∧
    ((∀ i, ∃ n a, backend i = BackendResponse.toolCall n a) →
      agentTurn backend cap = (.capExceeded, cap + 1)) := by
  constructor
  · have h := agentTurnAux_calls_le backend cap 0
    simpa [agentTurn] using h
  · intro h
    have hall := agentTurnAux_allTools backend h cap 0
    simpa [agentTurn] using hall

/-- Witness for C5: a backend that requests tools on every call, run with
cap 3, is stopped with CapExceeded after exactly 4 backend calls. -/
theorem agent_tool_loop_bounded_witness :
    agentTurn toolHungryBackend 3 = (.capExceeded, 3 + 1) :=
  (agent_tool_loop_bounded toolHungryBackend 3).2
    (fun _ => ⟨"query", [], rfl⟩)

/-- C7: for a scoped acquisition, release is applied on every exit path of
the body (value or exception alike); an invoke on a Dead channel fails
immediately without attempting the subprocess; and a subprocess dying
mid-invocation yields a channel failure and moves the channel to Dead. -/
theorem channel_release_and_dead :
    (∀ (α : Type) (body : ToolChannelState → PyOutcome α × ToolChannelState)
        (s : ToolChannelState),
        (withScope releaseChannel body s).2 = .released) ∧
    (∀ (subprocess : ToolCallRequest → Option String) (req : ToolCallRequest),
        invoke .dead subprocess req = (.channelFailure, .dead, false)) ∧
    (∀ (subprocess : ToolCallRequest → Option String) (req : ToolCallRequest),
        subprocess req = none →
          invoke .ready subprocess req = (.channelFailure, .dead, true)) := by
  refine ⟨fun α body s => rfl, fun sub req => rfl, fun sub req h => ?_⟩
  simp [invoke, h]

/-- Witness for C7: a subprocess that dies mid-invocation fails the current
invocation and kills the channel; the subsequent invoke on the Dead channel
fails without attempting the subprocess. -/
theorem channel_release_and_dead_witness :
    invoke .ready deadSubprocess demoReq = (.channelFailure, .dead, true) ∧
    invoke .dead deadSubprocess demoReq = (.channelFailure, .dead, false) :=
  ⟨channel_release_and_dead.2.2 deadSubprocess demoReq rfl,
   channel_release_and_dead.2.1 deadSubprocess demoReq⟩

/-- C8: when GEMINI_API_KEY is unset or set to the empty string, the three
validating entry points return before constructing any client, agent, team
or workbench, while GeminiBasic.main performs no check and constructs the
client with the missing key. -/
theorem gemini_key_validation (env : Env)
    (h : env "GEMINI_API_KEY" = none ∨ env "GEMINI_API_KEY" = some "") :
    multiAgentMain env = .earlyReturn ∧
    simpleAssistantMain env = .earlyReturn ∧
    mainWithRoundRobinChat env = .earlyReturn ∧
    geminiBasicMain env = .clientConstructed (env "GEMINI_API_KEY") := by
  rcases h with h | h <;>
    simp [multiAgentMain, simpleAssistantMain, mainWithRoundRobinChat,
      geminiBasicMain, envStrFalsy, h, String.isEmpty_iff]

/-- Witness for C8: in an environment with no variables set at all, the
three validating entry points return early and GeminiBasic constructs the
client with no key. -/
theorem gemini_key_validation_witness :
    multiAgentMain emptyEnv = .earlyReturn ∧
    simpleAssistantMain emptyEnv = .earlyReturn ∧
    mainWithRoundRobinChat emptyEnv = .earlyReturn ∧
    geminiBasicMain emptyEnv = .clientConstructed (emptyEnv "GEMINI_API_KEY") :=
  gemini_key_validation emptyEnv (Or.inl rfl)

/-- Counterexample to C9 as stated: in an environment where MYSQL_DATABASE
is set to the empty string, os.getenv("MYSQL_DATABASE", "school_db")
yields the empty string (the default applies only when the variable is
unset), and get_MySQL_ServerMCP takes the ValueError branch even though
`uv` is found. -/
theorem mysql_valueerror_reachable :
    osGetenvD envEmptyDb "MYSQL_DATABASE" "school_db" = "" ∧
    get_MySQL_ServerMCP envEmptyDb uvOnPath = .valueErrorMissingDatabase := by
  constructor <;> rfl

/-- C9 (amended): get_MySQL_ServerMCP raises FileNotFoundError exactly when
`uv` is found neither on PATH nor at the three candidate locations; the
ValueError branch is reachable, and is taken exactly when `uv` is found and
MYSQL_DATABASE is set in the environment to the empty string (when it is
unset, the default "school_db" applies and no ValueError is raised). -/
theorem mysql_error_conditions (env : Env) (uv : UvProbe) :
    (get_MySQL_ServerMCP env uv = .fileNotFoundError ↔
      (uv.onPath = none ∧ uv.scriptsUvExe = false ∧ uv.scriptsUv = false ∧
        uv.binUv = false)) ∧
    (get_MySQL_ServerMCP env uv = .valueErrorMissingDatabase ↔
      (findUvPath uv ≠ none ∧ env "MYSQL_DATABASE" = some "")) := by
  have hfind : findUvPath uv = none ↔
      (uv.onPath = none ∧ uv.scriptsUvExe = false ∧ uv.scriptsUv = false ∧
        uv.binUv = false) := by
    rcases uv with ⟨op, e1, e2, e3⟩
    cases op <;> cases e1 <;> cases e2 <;> cases e3 <;> simp [findUvPath]
  have hdb : osGetenvD env "MYSQL_DATABASE" "school_db" = "" ↔
      env "MYSQL_DATABASE" = some "" := by
    unfold osGetenvD
    cases he : env "MYSQL_DATABASE" with
    | none => simp [he]
    | some s => simp [he]
  rw [← hfind]
  cases hf : findUvPath uv with
  | none => simp [get_MySQL_ServerMCP, hf]
  | some p =>
    by_cases hempty : osGetenvD env "MYSQL_DATABASE" "school_db" = ""
    · simp [get_MySQL_ServerMCP, hf, String.isEmpty_iff, hempty, hdb.mp hempty]
    · simp [get_MySQL_ServerMCP, hf, String.isEmpty_iff, hempty, ← hdb]

lemma lastAssoc_foldl (k : String) (d : List (String × String)) :
    ∀ init : Option String,
      d.foldl (fun acc p => if p.1 = k then some p.2 else acc) init
        = (lastAssoc d k).elim init some := by
  induction d with
  | nil => intro init; simp [lastAssoc]
  | cons p t ih =>
    intro init
    have hcons : lastAssoc (p :: t) k
        = (lastAssoc t k).elim (if p.1 = k then some p.2 else none) some := by
      show t.foldl _ (if p.1 = k then some p.2 else none) = _
      exact ih _
    simp only [List.foldl_cons]
    rw [ih, hcons]
    cases lastAssoc t k with
    | none => by_cases hp : p.1 = k <;> simp [hp]
    | some v => simp

lemma lastAssoc_append (a b : List (String × String)) (k : String) :
    lastAssoc (a ++ b) k = (lastAssoc b k).elim (lastAssoc a k) some := by
  have h := lastAssoc_foldl k b (lastAssoc a k)
  calc lastAssoc (a ++ b) k
      = b.foldl (fun acc p => if p.1 = k then some p.2 else acc)
          (lastAssoc a k) := by
        simp [lastAssoc, List.foldl_append]
    _ = (lastAssoc b k).elim (lastAssoc a k) some := h

/-- C10: the server environment built by get_RestApi_ServerMCP maps
REST_BASE_URL to the base_url argument when present, else the default mock
URL, and HEADER_Accept to the accept_header argument when present, else
"application/json" -- unless a keyword env_vars entry with the same key
overrides it, because env_vars is merged last and a later binding wins. -/
theorem restapi_env_mapping (base_url accept_header : Option String)
    (env_vars : List (String × String)) :
    lastAssoc (get_RestApi_ServerMCP base_url accept_header env_vars)
        "REST_BASE_URL"
      = some ((lastAssoc env_vars "REST_BASE_URL").getD
          (base_url.getD "https://fake-json-api.mock.beeceptor.com/users")) ∧
    lastAssoc (get_RestApi_ServerMCP base_url accept_header env_vars)
        "HEADER_Accept"
      = some ((lastAssoc env_vars "HEADER_Accept").getD
          (accept_header.getD "application/json")) := by
  have hsplit : get_RestApi_ServerMCP base_url accept_header env_vars
      = [("REST_BASE_URL",
            base_url.getD "https://fake-json-api.mock.beeceptor.com/users"),
         ("HEADER_Accept", accept_header.getD "application/json")]
        ++ env_vars := rfl
  constructor
  · rw [hsplit, lastAssoc_append]
    have hpre : lastAssoc
        [("REST_BASE_URL",
            base_url.getD "https://fake-json-api.mock.beeceptor.com/users"),
         ("HEADER_Accept", accept_header.getD "application/json")]
        "REST_BASE_URL"
        = some (base_url.getD
            "https://fake-json-api.mock.beeceptor.com/users") := by
      simp [lastAssoc]
    rw [hpre]
    cases lastAssoc env_vars "REST_BASE_URL" <;> simp
  · rw [hsplit, lastAssoc_append]
    have hpre : lastAssoc
        [("REST_BASE_URL",
            base_url.getD "https://fake-json-api.mock.beeceptor.com/users"),
         ("HEADER_Accept", accept_header.getD "application/json")]
        "HEADER_Accept"
        = some (accept_header.getD "application/json") := by
      simp [lastAssoc]
    rw [hpre]
    cases lastAssoc env_vars "HEADER_Accept" <;> simp

lemma stepRun_fields (ps : List Participant) (st : RunState)
    (hcur : st.cursor < ps.length) :
    (stepRun ps st).transcript.length = st.transcript.length + 1 ∧
    (stepRun ps st).invocations = st.invocations + 1 ∧
    (stepRun ps st).cursor = (st.cursor + 1) % ps.length := by
  unfold stepRun
  cases hp : ps[st.cursor]? with
  | none =>
    rw [List.getElem?_eq_getElem hcur] at hp
    exact absurd hp (by simp)
  | some p => simp

lemma stepRun_inv (ps : List Participant) (st : RunState)
    (h : RoundRobinInv ps st) : RoundRobinInv ps (stepRun ps st) := by
  obtain ⟨hc, hl, ha⟩ := h
  unfold stepRun
  cases hp : ps[st.cursor]? with
  | none => exact ⟨hc, hl, ha⟩
  | some p =>
    refine ⟨?_, ?_, ?_⟩
    · show (st.cursor + 1) % ps.length = (st.invocations + 1) % ps.length
      rw [hc, Nat.mod_add_mod]
    · show (st.transcript ++ [_]).length = 1 + (st.invocations + 1)
      simp [hl]
      omega
    · intro k hk
      simp only [List.length_append, List.length_cons, List.length_nil] at hk
      by_cases hlt : k + 1 < st.transcript.length
      · have hres := ha k hlt
        rw [List.get_eq_getElem] at hres ⊢
        rw [List.getElem_append_left hlt]
        exact hres
      · have hkeq : k + 1 = st.transcript.length := by omega
        have hkinv : k = st.invocations := by omega
        rw [List.get_eq_getElem,
          List.getElem_append_right (by omega : st.transcript.length ≤ k + 1)]
        have hzero : k + 1 - st.transcript.length = 0 := by omega
        simp only [hzero, List.getElem_cons_zero]
        rw [hkinv, ← hc, hp]
        rfl

lemma runLoop_inv (ps : List Participant) (cond : TerminationCondition) :
    ∀ (fuel : Nat) (st : RunState),
      RoundRobinInv ps st → RoundRobinInv ps (runLoop ps cond fuel st) := by
  intro fuel
  induction fuel with
  | zero => intro st h; exact h
  | succ fuel ih =>
    intro st h
    by_cases hc : evalCond cond st.transcript = true
    · simpa [runLoop, hc] using h
    · have hred : runLoop ps cond (fuel + 1) st
          = runLoop ps cond fuel (stepRun ps st) := by
        simp [runLoop, hc]
      rw [hred]
      exact ih _ (stepRun_inv ps st h)

lemma seed_inv (ps : List Participant) (task : String) :
    RoundRobinInv ps ⟨[⟨"user", task⟩], 0, 0⟩ := by
  refine ⟨by simp, by simp, ?_⟩
  intro k hk
  simp only [List.length_cons, List.length_nil] at hk
  omega

/-- C1: in every run of the round-robin orchestrator over a fixed ordered
participant list, the k-th agent-authored message (counting from 0, sitting
at transcript position k+1 after the seed) is authored by participant
number k mod N, for the whole run, whatever the termination condition. -/
theorem roundRobin_cyclic_order (ps : List Participant) (task : String)
    (cond : TerminationCondition) (fuel k : Nat)
    (hk : k + 1 < (runOrchestrator ps task cond fuel).transcript.length) :
    (ps[k % ps.length]?).map Participant.name
      = some ((runOrchestrator ps task cond fuel).transcript.get
          ⟨k + 1, hk⟩).source := by
  have h := runLoop_inv ps cond fuel _ (seed_inv ps task)
  exact h.2.2 k hk

/-- Witness for C1: running the three-agent MainRunner pipeline under
MaxMessages(7), the 3rd agent-authored message (0-indexed) is again
authored by the first participant, RestApiAgent = participant 3 mod 3. -/
theorem roundRobin_cyclic_order_witness :
    (demoPs[3 % demoPs.length]?).map Participant.name
      = some ((runOrchestrator demoPs "task"
          (.maxMessages 7) 10).transcript.get ⟨3 + 1, by decide⟩).source :=
  roundRobin_cyclic_order demoPs "task" (.maxMessages 7) 10 3 (by decide)

lemma runLoop_maxMessages (ps : List Participant) (hps : ps ≠ [])
    (k : Nat) :
    ∀ (fuel : Nat) (st : RunState), st.cursor < ps.length →
      st.transcript.length ≤ k → k - st.transcript.length ≤ fuel →
      (runLoop ps (.maxMessages k) fuel st).transcript.length = k ∧
      (runLoop ps (.maxMessages k) fuel st).invocations
        = st.invocations + (k - st.transcript.length) := by
  intro fuel
  induction fuel with
  | zero =>
    intro st hcur hlen hfuel
    have h0 : runLoop ps (.maxMessages k) 0 st = st := rfl
    rw [h0]
    exact ⟨by omega, by omega⟩
  | succ fuel ih =>
    intro st hcur hlen hfuel
    by_cases hstop : k ≤ st.transcript.length
    · have hlenk : st.transcript.length = k := by omega
      have hev : evalCond (.maxMessages k) st.transcript = true := by
        simp [evalCond]
        omega
      rw [show runLoop ps (.maxMessages k) (fuel + 1) st = st from by
        simp [runLoop, hev]]
      exact ⟨hlenk, by omega⟩
    · push_neg at hstop
      have hev : evalCond (.maxMessages k) st.transcript = false := by
        simp [evalCond]
        omega
      have hred : runLoop ps (.maxMessages k) (fuel + 1) st
          = runLoop ps (.maxMessages k) fuel (stepRun ps st) := by
        simp [runLoop, hev]
      obtain ⟨hsl, hsi, hsc⟩ := stepRun_fields ps st hcur
      have hcur2 : (stepRun ps st).cursor < ps.length := by
        rw [hsc]
        exact Nat.mod_lt _ (List.length_pos.mpr hps)
      have hrec := ih (stepRun ps st) hcur2 (by omega) (by omega)
      rw [hred]
      exact ⟨hrec.1, by omega⟩

/-- C2: over any nonempty participant list, a run under MaxMessages(k)
(k at least 1, with enough fuel) ends with a final transcript of exactly k
messages, a count that includes the synthetic seed message carrying the
task; consequently only k-1 participant invocations occur, and none after
the count is reached (in MultiAgent.py, k = 6 over two agents gives the
first agent 3 turns and the second only 2, contrary to the source comment
that each agent speaks exactly 3 times). -/
theorem maxMessages_transcript_length (ps : List Participant)
    (hps : ps ≠ []) (task : String) (k fuel : Nat) (hk : 1 ≤ k)
    (hfuel : k ≤ fuel + 1) :
    (runOrchestrator ps task (.maxMessages k) fuel).transcript.length = k ∧
    (runOrchestrator ps task (.maxMessages k) fuel).invocations = k - 1 := by
  have h := runLoop_maxMessages ps hps k fuel
    ⟨[⟨"user", task⟩], 0, 0⟩
    (by simpa using List.length_pos.mpr hps)
    (by simpa using hk)
    (by simp; omega)
  exact ⟨h.1, by simpa using h.2⟩

/-- Witness for C2: the MultiAgent.py configuration -- two agents under
MaxMessageTermination(max_messages=6) -- yields a final transcript of
exactly 6 messages including the seed, with only 5 agent invocations. -/
theorem maxMessages_transcript_length_witness :
    (runOrchestrator demo2Ps "topic"
        (.maxMessages 6) 6).transcript.length = 6 ∧
    (runOrchestrator demo2Ps "topic" (.maxMessages 6) 6).invocations
      = 6 - 1 :=
  maxMessages_transcript_length demo2Ps (by simp [demo2Ps]) "topic" 6 6
    (by decide) (by decide)

/-- C4: termination is evaluated only between complete messages and, from
the first state in which the condition evaluates to true, the orchestrator
never invokes any participant again: the loop leaves such a state entirely
untouched, and in any run the number of appended messages equals the
number of participant invocations (every invocation appends exactly one
complete message before the next check). -/
theorem termination_stops_invocations (ps : List Participant)
    (cond : TerminationCondition) (fuel : Nat) (st : RunState) :
    (evalCond cond st.transcript = true → runLoop ps cond fuel st = st) ∧
    (runLoop ps cond fuel st).transcript.length + st.invocations
      = (runLoop ps cond fuel st).invocations + st.transcript.length := by
  constructor
  · intro h
    cases fuel with
    | zero => rfl
    | succ fuel => simp [runLoop, h]
  · induction fuel generalizing st with
    | zero =>
      have h0 : runLoop ps cond 0 st = st := rfl
      rw [h0]
      omega
    | succ fuel ih =>
      by_cases h : evalCond cond st.transcript = true
      · simp only [runLoop, h, if_true]
        omega
      · have hred : runLoop ps cond (fuel + 1) st
            = runLoop ps cond fuel (stepRun ps st) := by
          simp [runLoop, h]
        have hrec := ih (stepRun ps st)
        have hdelta : (stepRun ps st).transcript.length + st.invocations
            = (stepRun ps st).invocations + st.transcript.length := by
          cases hp : ps[st.cursor]? with
          | none => simp only [stepRun, hp]; omega
          | some p =>
            simp only [stepRun, hp, List.length_append, List.length_cons,
              List.length_nil]
            omega
        rw [hred]
        omega

/-- Witness for C4: from a state whose last message is FileAgent saying
TERMINATE_CHAT, the loop under MainRunner's termination condition performs
no further invocation for any amount of fuel left. -/
theorem termination_stops_invocations_witness :
    runLoop demoPs (.textMention "TERMINATE_CHAT" (some ["FileAgent"])) 5
        stoppedState
      = stoppedState :=
  (termination_stops_invocations demoPs
    (.textMention "TERMINATE_CHAT" (some ["FileAgent"])) 5 stoppedState).1
    (by decide)

end AgenticAI
